import Mathlib

/-!
Verification of the sensor field-of-view ray-sampling and intersection engine
of the lidar_3d_visualizer application.

The development shallowly embeds the TypeScript sources:
  - src/scene/beams.ts       (BeamManager: updateBeams, clearBeamsForSensor,
                              generateBeamsForSensor)
  - src/scene/obstacle.ts    (ObstacleManager: add/remove/serialize/deserialize)
  - the sensor manager file  (SensorManager: addSensor, removeSensor,
                              serializeSensors, deserializeSensors)

JavaScript numbers are embedded as exact rationals where only field arithmetic
occurs, and as real numbers where trigonometry occurs.  JavaScript Map objects
are embedded as association lists with Map.get / Map.set / Map.delete
semantics (set on an existing key updates in place, set on a fresh key
appends; iteration order is entry insertion order).  The three.js raycaster is
external library code: it is embedded by its documented contract, namely that
intersectObjects collects the intersection distances reported by every
collidable object, keeps those within [near, far] and returns them sorted
ascending by distance.  The per-object intersection distances themselves are
treated as an oracle parameter, since triangle-level intersection is performed
inside three.js, not in this repository.
-/

/-! ## Data model (sensor catalog and placement records) -/

inductive BeamLayout where
  | verticalEven
  | singlePlane
deriving DecidableEq, Repr

/-- SensorDefinition record from the sensor manager file, lines 6-15.
Angles are degrees, maxRange a distance; channels is a positive integer
count of vertical rings. -/
structure SensorDefinition where
  id : String
  displayName : String
  hFov : ℚ
  vFov : ℚ
  maxRange : ℚ
  channels : ℕ
  beamLayout : BeamLayout
  modelFile : String
deriving DecidableEq, Repr

structure Vec3Q where
  x : ℚ
  y : ℚ
  z : ℚ
deriving DecidableEq, Repr

structure EulerRPY where
  roll : ℚ
  pitch : ℚ
  yaw : ℚ
deriving DecidableEq, Repr

/-- PlacedSensorData record from the sensor manager file, lines 17-23. -/
structure PlacedSensorData where
  id : String
  definitionId : String
  position : Vec3Q
  rotation : EulerRPY
  visible : Bool
deriving DecidableEq, Repr

/-! ## Angular sampling grid (beams.ts, generateBeamsForSensor) -/

/-- beams.ts line 91: the horizontal step count for one channel:
`(definition.hFov === 360) ? 72 : Math.ceil(definition.hFov / 5)`. -/
def numHorizontalSteps (hFov : ℚ) : ℤ :=
  if hFov = 360 then 72 else ⌈hFov / 5⌉

/-- The number of iterations of the `for (let j = 0; j < numHorizontalSteps; ...)`
loop in beams.ts line 93, as a natural number. -/
def numHorizontalStepsNat (hFov : ℚ) : ℕ :=
  (numHorizontalSteps hFov).toNat

/-- beams.ts line 79: `definition.vFov / Math.max(1, definition.channels - 1)`.
JavaScript subtraction on channels = 0 gives -1 and max(1,-1) = 1; natural
subtraction gives 0 and max 1 0 = 1, so the two agree for every channels. -/
def vAngleStep (d : SensorDefinition) : ℚ :=
  d.vFov / (max 1 (d.channels - 1) : ℕ)

/-- beams.ts lines 81-89: the vertical angle of channel i, in degrees.  The
code wraps this value in THREE.MathUtils.degToRad before use; degToRad is
the injective linear map x * pi / 180, so statements about the degree value
transfer to the radian value. -/
def vAngleDeg (d : SensorDefinition) (i : ℕ) : ℚ :=
  if d.channels = 1 then 0
  else if d.beamLayout = BeamLayout.verticalEven then -(d.vFov / 2) + i * vAngleStep d
  else 0

/-- beams.ts line 94: the horizontal angle of step j, in degrees (the code
wraps this value in degToRad):
`-(definition.hFov / 2) + j * (definition.hFov / numHorizontalSteps)`. -/
def hAngleDeg (hFov : ℚ) (j : ℕ) : ℚ :=
  -(hFov / 2) + j * (hFov / (numHorizontalSteps hFov : ℚ))

/-! ## Theorems for claims C3, C4, C5 -/

/-- C3: for every sensor definition with a positive horizontal field of view,
the number of horizontal samples per channel is exactly 72 when hFov = 360 and
otherwise ceil(hFov / 5); this count is at least 1; and hFov = 180 yields
exactly 36 horizontal samples. -/
theorem numHorizontalSteps_spec (d : SensorDefinition) (hpos : 0 < d.hFov) :
    (d.hFov = 360 → numHorizontalSteps d.hFov = 72) ∧
    (d.hFov ≠ 360 → numHorizontalSteps d.hFov = ⌈d.hFov / 5⌉) ∧
    1 ≤ numHorizontalSteps d.hFov ∧
    numHorizontalSteps 180 = 36 := by
  refine ⟨fun h => by simp [numHorizontalSteps, h],
          fun h => by simp [numHorizontalSteps, h], ?_, ?_⟩
  · unfold numHorizontalSteps
    split
    · norm_num
    · have h5 : (0:ℚ) < d.hFov / 5 := by positivity
      exact Int.ceil_pos.mpr h5
  · unfold numHorizontalSteps
    norm_num [Int.ceil_eq_iff]

theorem numHorizontalSteps_spec_witness :
    0 < (180:ℚ) ∧ numHorizontalSteps 180 = 36 := by
  have h := numHorizontalSteps_spec
    { id := "s", displayName := "s", hFov := 180, vFov := 30, maxRange := 20,
      channels := 1, beamLayout := BeamLayout.singlePlane, modelFile := "m" }
    (by norm_num)
  exact ⟨by norm_num, h.2.2.2⟩

/-- C4: for a sensor definition with beamLayout verticalEven and more than one
channel, channel i has vertical angle -vFov/2 + i * (vFov / (channels - 1))
degrees; the first channel sits at -vFov/2, the last at +vFov/2, and
consecutive channels are a constant step apart, so the channels vertical
angles are exactly channels evenly spaced values spanning [-vFov/2, +vFov/2]. -/
theorem vAngleDeg_verticalEven_spec (d : SensorDefinition)
    (hL : d.beamLayout = BeamLayout.verticalEven) (hc : 1 < d.channels) :
    (∀ i, i < d.channels →
      vAngleDeg d i = -(d.vFov / 2) + i * (d.vFov / ((d.channels : ℚ) - 1))) ∧
    vAngleDeg d 0 = -(d.vFov / 2) ∧
    vAngleDeg d (d.channels - 1) = d.vFov / 2 ∧
    (∀ i, i + 1 < d.channels →
      vAngleDeg d (i + 1) - vAngleDeg d i = d.vFov / ((d.channels : ℚ) - 1)) := by
  have hne1 : d.channels ≠ 1 := Nat.ne_of_gt hc
  have h1le : 1 ≤ d.channels := le_of_lt hc
  have hmax : max 1 (d.channels - 1) = d.channels - 1 :=
    max_eq_right (Nat.le_sub_one_of_lt hc)
  have hcast : ((d.channels - 1 : ℕ) : ℚ) = (d.channels : ℚ) - 1 := by
    push_cast [Nat.cast_sub h1le]
    ring
  have hstep : vAngleStep d = d.vFov / ((d.channels : ℚ) - 1) := by
    rw [vAngleStep, hmax, hcast]
  have hform : ∀ i : ℕ,
      vAngleDeg d i = -(d.vFov / 2) + i * (d.vFov / ((d.channels : ℚ) - 1)) := by
    intro i
    rw [vAngleDeg, if_neg hne1, if_pos hL, hstep]
  have hccast : (1 : ℚ) < (d.channels : ℚ) := by exact_mod_cast hc
  have hnz : (d.channels : ℚ) - 1 ≠ 0 := by linarith
  refine ⟨fun i _ => hform i, ?_, ?_, ?_⟩
  · rw [hform 0]
    norm_num
  · rw [hform (d.channels - 1), hcast]
    field_simp
    ring
  · intro i _
    rw [hform (i + 1), hform i]
    push_cast
    ring

theorem vAngleDeg_verticalEven_spec_witness :
    vAngleDeg
      { id := "s", displayName := "s", hFov := 360, vFov := 30, maxRange := 20,
        channels := 3, beamLayout := BeamLayout.verticalEven, modelFile := "m" } 0
      = -(30 / 2) := by
  have h := vAngleDeg_verticalEven_spec
    { id := "s", displayName := "s", hFov := 360, vFov := 30, maxRange := 20,
      channels := 3, beamLayout := BeamLayout.verticalEven, modelFile := "m" }
    rfl (by norm_num)
  exact h.2.1

/-- C5: for every sensor definition with a single channel the vertical angle of
every ray is exactly 0 whatever the beam layout, and for every sensor
definition with beamLayout singlePlane the vertical angle of every ray is
exactly 0 whatever the channel count. -/
theorem vAngleDeg_singleChannel_singlePlane_zero (d : SensorDefinition) (i : ℕ) :
    (d.channels = 1 → vAngleDeg d i = 0) ∧
    (d.beamLayout = BeamLayout.singlePlane → vAngleDeg d i = 0) := by
  constructor
  · intro h
    simp [vAngleDeg, h]
  · intro h
    simp [vAngleDeg, h]

theorem vAngleDeg_singleChannel_singlePlane_zero_witness :
    vAngleDeg
      { id := "s", displayName := "s", hFov := 360, vFov := 30, maxRange := 20,
        channels := 1, beamLayout := BeamLayout.verticalEven, modelFile := "m" } 4
      = 0 :=
  (vAngleDeg_singleChannel_singlePlane_zero
    { id := "s", displayName := "s", hFov := 360, vFov := 30, maxRange := 20,
      channels := 1, beamLayout := BeamLayout.verticalEven, modelFile := "m" } 4).1 rfl

/-! ## Ray intersection resolution (beams.ts, lines 72-116)

The three.js raycaster is external library code.  Its contract: for
`intersectObjects(objects, false)` every object reports the distances of its
intersections with the ray; distances outside [near, far] are dropped
(near = 0 by default, far is set to maxRange in beams.ts line 102) and the
remaining ones are returned sorted ascending by distance.  The per-object
distance lists are the oracle input of the embedding. -/

/-- beams.ts lines 74-77: the collidable set is all obstacles plus the floor
plane when the world has been initialized. -/
def collidableObjects {α : Type} (obstacles : List α) (floorPlane : Option α) :
    List α :=
  obstacles ++ (match floorPlane with | some f => [f] | none => [])

/-- The sorted in-range intersection distances returned by
`raycaster.intersectObjects(collidableObjects, false)`, given the raw
distance list each collidable object reports. -/
def raycastDistances (near far : ℚ) (objectHits : List (List ℚ)) : List ℚ :=
  (objectHits.flatten.filter
      (fun dist => decide (near ≤ dist) && decide (dist ≤ far))).mergeSort
    (fun a b => decide (a ≤ b))

/-- beams.ts lines 101-109: cast the ray limited to maxRange; the resolved
distance is `intersects[0].distance` when any intersection exists, and
maxRange otherwise. -/
def resolvedDistance (maxRange : ℚ) (objectHits : List (List ℚ)) : ℚ :=
  (raycastDistances 0 maxRange objectHits).headD maxRange

/-- One emitted sample: channel index, horizontal step index and resolved
distance.  Origin and direction are determined by these indices together
with the sensor pose (see worldRayDirection below). -/
structure Sample where
  channel : ℕ
  step : ℕ
  distance : ℚ
deriving DecidableEq, Repr

/-- beams.ts lines 106-124 for a single ray: resolve the distance, and skip
the ray (emitting nothing) when the resolved height is below 0.01; otherwise
emit the sample.  The loop body raises no exception in either case. -/
def beamForRay (maxRange : ℚ) (objectHits : List (List ℚ)) (i j : ℕ) :
    Option Sample :=
  let distance := resolvedDistance maxRange objectHits
  if distance < 1 / 100 then none else some ⟨i, j, distance⟩

/-- beams.ts lines 81-126: the list of samples emitted for one sensor, over
all channels i and horizontal steps j.  hitsFor i j is the oracle list of
per-object intersection distances for the ray of channel i, step j. -/
def generateSamples (d : SensorDefinition) (hitsFor : ℕ → ℕ → List (List ℚ)) :
    List Sample :=
  (List.range d.channels).flatMap (fun i =>
    (List.range (numHorizontalStepsNat d.hFov)).filterMap (fun j =>
      beamForRay d.maxRange (hitsFor i j) i j))

/-- Every ray of the grid with its resolved distance, before the degenerate
filter: the reference value for the skip theorem. -/
def allRaySamples (d : SensorDefinition) (hitsFor : ℕ → ℕ → List (List ℚ)) :
    List Sample :=
  (List.range d.channels).flatMap (fun i =>
    (List.range (numHorizontalStepsNat d.hFov)).map (fun j =>
      ⟨i, j, resolvedDistance d.maxRange (hitsFor i j)⟩))

/-! ## Theorems for claims C1 and C7 -/

/-- C1: for a ray cast against the collidable set (obstacles plus floor), if
the nearest intersection lies at a nonnegative distance dmin with
dmin < maxRange then the resolved distance is exactly dmin, and if every
intersection lies beyond maxRange (in particular if there is none) the
resolved distance is exactly maxRange. -/
theorem resolvedDistance_nearest_or_maxRange (maxRange : ℚ)
    (obstacleHits : List (List ℚ)) (floorHits : Option (List ℚ))
    (hpos : ∀ l ∈ collidableObjects obstacleHits floorHits, ∀ x ∈ l, 0 ≤ x) :
    (∀ dmin ∈ (collidableObjects obstacleHits floorHits).flatten,
      (∀ x ∈ (collidableObjects obstacleHits floorHits).flatten, dmin ≤ x) →
      dmin < maxRange →
      resolvedDistance maxRange (collidableObjects obstacleHits floorHits) = dmin) ∧
    ((∀ x ∈ (collidableObjects obstacleHits floorHits).flatten, maxRange < x) →
      resolvedDistance maxRange (collidableObjects obstacleHits floorHits) = maxRange) := by
  set objectHits := collidableObjects obstacleHits floorHits with hobj
  have htrans : ∀ a b c : ℚ, (fun a b : ℚ => decide (a ≤ b)) a b = true →
      (fun a b : ℚ => decide (a ≤ b)) b c = true →
      (fun a b : ℚ => decide (a ≤ b)) a c = true := by
    intro a b c hab hbc
    simp only [decide_eq_true_eq] at *
    exact le_trans hab hbc
  have htotal : ∀ a b : ℚ, ((fun a b : ℚ => decide (a ≤ b)) a b ||
      (fun a b : ℚ => decide (a ≤ b)) b a) = true := by
    intro a b
    simp only [Bool.or_eq_true, decide_eq_true_eq]
    exact le_total a b
  constructor
  · intro dmin hmem hmin hlt
    have hd0 : 0 ≤ dmin := by
      rcases List.mem_flatten.mp hmem with ⟨l, hl, hx⟩
      exact hpos l hl dmin hx
    have hdF : dmin ∈ objectHits.flatten.filter
        (fun dist => decide (0 ≤ dist) && decide (dist ≤ maxRange)) := by
      rw [List.mem_filter]
      refine ⟨hmem, ?_⟩
      simp only [Bool.and_eq_true, decide_eq_true_eq]
      exact ⟨hd0, le_of_lt hlt⟩
    have hdS : dmin ∈ raycastDistances 0 maxRange objectHits :=
      List.mem_mergeSort.mpr hdF
    unfold resolvedDistance
    cases hS : raycastDistances 0 maxRange objectHits with
    | nil =>
      rw [hS] at hdS
      cases hdS
    | cons hd tl =>
      have hsorted := List.sorted_mergeSort htrans htotal
        (objectHits.flatten.filter
          (fun dist => decide (0 ≤ dist) && decide (dist ≤ maxRange)))
      rw [show (objectHits.flatten.filter
          (fun dist => decide (0 ≤ dist) && decide (dist ≤ maxRange))).mergeSort
          (fun a b : ℚ => decide (a ≤ b)) = raycastDistances 0 maxRange objectHits
          from rfl, hS] at hsorted
      have hhd : hd ∈ raycastDistances 0 maxRange objectHits := by
        rw [hS]
        exact List.mem_cons_self hd tl
      have hhdflt : hd ∈ objectHits.flatten :=
        List.mem_filter.mp (List.mem_mergeSort.mp hhd) |>.1
      have h1 : dmin ≤ hd := hmin hd hhdflt
      have h2 : hd ≤ dmin := by
        rw [hS] at hdS
        rcases List.mem_cons.mp hdS with h | h
        · exact le_of_eq h.symm
        · have := (List.pairwise_cons.mp hsorted).1 dmin h
          simpa using this
      simp only [List.headD_cons]
      exact le_antisymm h2 h1
  · intro hfar
    have hF : objectHits.flatten.filter
        (fun dist => decide (0 ≤ dist) && decide (dist ≤ maxRange)) = [] := by
      rw [List.filter_eq_nil_iff]
      intro x hx
      simp only [Bool.and_eq_true, decide_eq_true_eq, not_and]
      intro _
      exact not_le_of_lt (hfar x hx)
    unfold resolvedDistance raycastDistances
    rw [hF]
    simp

theorem resolvedDistance_nearest_or_maxRange_witness :
    (∀ l ∈ collidableObjects [[(5:ℚ), 9]] (some [12]), ∀ x ∈ l, 0 ≤ x) ∧
    resolvedDistance 20 (collidableObjects [[(5:ℚ), 9]] (some [12])) = 5 := by
  have hpos : ∀ l ∈ collidableObjects [[(5:ℚ), 9]] (some [12]), ∀ x ∈ l, 0 ≤ x := by
    decide
  refine ⟨hpos, ?_⟩
  exact (resolvedDistance_nearest_or_maxRange 20 [[(5:ℚ), 9]] (some [12]) hpos).1 5
    (by decide) (by decide) (by norm_num)

lemma filterMap_eq_map_filter {α β : Type} (f : α → Option β) (g : α → β)
    (p : β → Bool) (hfg : ∀ a, f a = if p (g a) then some (g a) else none)
    (l : List α) : l.filterMap f = (l.map g).filter p := by
  induction l with
  | nil => rfl
  | cons a l ih =>
    rw [List.filterMap_cons, List.map_cons, List.filter_cons, hfg a]
    by_cases hp : p (g a)
    · rw [if_pos hp, if_pos hp, ih]
    · rw [if_neg hp, if_neg hp, ih]

/-- C7: a ray whose resolved distance is strictly below the 0.01 threshold
emits no sample, and the emitted sample list for the sensor is exactly the
list of all grid rays filtered to those whose resolved distance is not below
the threshold: the skipped rays are dropped silently (every function involved
is total, so no error is raised) and all remaining rays still contribute. -/
theorem degenerate_ray_skipped (d : SensorDefinition)
    (hitsFor : ℕ → ℕ → List (List ℚ)) (i j : ℕ)
    (hdeg : resolvedDistance d.maxRange (hitsFor i j) < 1 / 100) :
    beamForRay d.maxRange (hitsFor i j) i j = none ∧
    generateSamples d hitsFor =
      (allRaySamples d hitsFor).filter (fun s => !(decide (s.distance < 1 / 100))) := by
  constructor
  · rw [beamForRay, if_pos hdeg]
  · rw [generateSamples, allRaySamples, List.filter_flatMap]
    refine List.flatMap_congr (fun c _ => ?_)
    refine filterMap_eq_map_filter _ _ _ (fun a => ?_) _
    rw [beamForRay]
    by_cases hlt : resolvedDistance d.maxRange (hitsFor c a) < 1 / 100
    · have hle : ¬ (100⁻¹ : ℚ) ≤ resolvedDistance d.maxRange (hitsFor c a) := by
        rw [not_le]
        simpa using hlt
      simp [hlt, hle]
    · have hle : (100⁻¹ : ℚ) ≤ resolvedDistance d.maxRange (hitsFor c a) := by
        rw [← not_lt]
        simpa using hlt
      simp [hlt, hle]

theorem degenerate_ray_skipped_witness :
    resolvedDistance
      (SensorDefinition.maxRange
        { id := "s", displayName := "s", hFov := 360, vFov := 30,
          maxRange := 1 / 200, channels := 1,
          beamLayout := BeamLayout.singlePlane, modelFile := "m" })
      ((fun _ _ => []) 0 0) < 1 / 100 ∧
    beamForRay (1 / 200) [] 0 0 = none := by
  have hdeg : resolvedDistance
      (SensorDefinition.maxRange
        { id := "s", displayName := "s", hFov := 360, vFov := 30,
          maxRange := 1 / 200, channels := 1,
          beamLayout := BeamLayout.singlePlane, modelFile := "m" })
      ((fun _ _ => ([] : List (List ℚ))) 0 0) < 1 / 100 := by
    simp only [resolvedDistance, raycastDistances, List.flatten_nil,
      List.filter_nil, List.mergeSort_nil, List.headD_nil]
    norm_num
  exact ⟨hdeg,
    (degenerate_ray_skipped
      { id := "s", displayName := "s", hFov := 360, vFov := 30,
        maxRange := 1 / 200, channels := 1,
        beamLayout := BeamLayout.singlePlane, modelFile := "m" }
      (fun _ _ => []) 0 0 hdeg).1⟩

/-! ## Ray direction construction (beams.ts lines 93-99, sensor manager
addSensor lines 72-79)

The sensor group rotation is set by
`rotation.set(degToRad(pitch), degToRad(yaw), degToRad(roll), "YXZ")`;
three.js keeps the group quaternion in sync through
Quaternion.setFromEuler, whose YXZ branch is embedded verbatim below, and
beams.ts applies it to the local direction through Vector3.applyQuaternion,
also embedded verbatim.  This part of the model is over the real numbers
since it involves trigonometry. -/

noncomputable section

/-- THREE.MathUtils.degToRad: degrees * (pi / 180). -/
def degToRad (deg : ℝ) : ℝ := deg * (Real.pi / 180)

@[ext]
structure Vec3R where
  x : ℝ
  y : ℝ
  z : ℝ

@[ext]
structure QuatR where
  w : ℝ
  x : ℝ
  y : ℝ
  z : ℝ

/-- Hamilton product of quaternions (three.js Quaternion.multiplyQuaternions). -/
def QuatR.mul (a b : QuatR) : QuatR :=
  ⟨a.w * b.w - a.x * b.x - a.y * b.y - a.z * b.z,
   a.w * b.x + a.x * b.w + a.y * b.z - a.z * b.y,
   a.w * b.y - a.x * b.z + a.y * b.w + a.z * b.x,
   a.w * b.z + a.x * b.y - a.y * b.x + a.z * b.w⟩

def QuatR.conjugate (q : QuatR) : QuatR := ⟨q.w, -q.x, -q.y, -q.z⟩

def QuatR.normSq (q : QuatR) : ℝ := q.w ^ 2 + q.x ^ 2 + q.y ^ 2 + q.z ^ 2

/-- three.js Quaternion.setFromEuler, case "YXZ", for euler angles (x, y, z)
in radians: the quaternion the sensor group carries after
`rotation.set(x, y, z, "YXZ")`. -/
def setFromEulerYXZ (x y z : ℝ) : QuatR :=
  let c1 := Real.cos (x / 2)
  let c2 := Real.cos (y / 2)
  let c3 := Real.cos (z / 2)
  let s1 := Real.sin (x / 2)
  let s2 := Real.sin (y / 2)
  let s3 := Real.sin (z / 2)
  ⟨c1 * c2 * c3 + s1 * s2 * s3,
   s1 * c2 * c3 + c1 * s2 * s3,
   c1 * s2 * c3 - s1 * c2 * s3,
   c1 * c2 * s3 - s1 * s2 * c3⟩

/-- three.js Vector3.applyQuaternion: v + 2 w (u x v) + 2 u x (u x v) with
u the vector part of q, written exactly as in the library source. -/
def applyQuaternionV (q : QuatR) (v : Vec3R) : Vec3R :=
  let tx := 2 * (q.y * v.z - q.z * v.y)
  let ty := 2 * (q.z * v.x - q.x * v.z)
  let tz := 2 * (q.x * v.y - q.y * v.x)
  ⟨v.x + q.w * tx + q.y * tz - q.z * ty,
   v.y + q.w * ty + q.z * tx - q.x * tz,
   v.z + q.w * tz + q.x * ty - q.y * tx⟩

/-- three.js Vector3.normalize: divideScalar(length or 1 when length = 0). -/
def normalizeV (v : Vec3R) : Vec3R :=
  let l := Real.sqrt (v.x ^ 2 + v.y ^ 2 + v.z ^ 2)
  let d := if l = 0 then 1 else l
  ⟨v.x / d, v.y / d, v.z / d⟩

/-- The quaternion of a placed sensor group: addSensor sets
`rotation.set(degToRad(pitch), degToRad(yaw), degToRad(roll), "YXZ")`. -/
def sensorOrientationQuat (roll pitch yaw : ℝ) : QuatR :=
  setFromEulerYXZ (degToRad pitch) (degToRad yaw) (degToRad roll)

/-- beams.ts line 97: the local-frame ray direction for vertical angle v and
horizontal angle h (radians):
`(sin(h) * cos(v), sin(v), cos(h) * cos(v))`. -/
def localDirection (v h : ℝ) : Vec3R :=
  ⟨Real.sin h * Real.cos v, Real.sin v, Real.cos h * Real.cos v⟩

/-- beams.ts lines 96-99: the world-space ray direction: local direction
rotated by the sensor group quaternion, then normalized. -/
def worldRayDirection (roll pitch yaw v h : ℝ) : Vec3R :=
  normalizeV (applyQuaternionV (sensorOrientationQuat roll pitch yaw) (localDirection v h))

/-- Reference definition following the words of the spec: the axis-angle
quaternion about the vertical axis (y). -/
def axisAngleQuatY (theta : ℝ) : QuatR :=
  ⟨Real.cos (theta / 2), 0, Real.sin (theta / 2), 0⟩

def axisAngleQuatX (theta : ℝ) : QuatR :=
  ⟨Real.cos (theta / 2), Real.sin (theta / 2), 0, 0⟩

def axisAngleQuatZ (theta : ℝ) : QuatR :=
  ⟨Real.cos (theta / 2), 0, 0, Real.sin (theta / 2)⟩

/-- Reference definition following the words of the spec: the orientation
quaternion described by the spec, yaw about the vertical axis, then pitch
about the lateral axis, then roll about the forward axis, composed in that
intrinsic order. -/
def specOrientationQuat (roll pitch yaw : ℝ) : QuatR :=
  (axisAngleQuatY (degToRad yaw)).mul
    ((axisAngleQuatX (degToRad pitch)).mul (axisAngleQuatZ (degToRad roll)))

/-- Reference definition following the words of the spec: rotation of a
vector by a quaternion, as the conjugation q * (0, v) * conjugate(q). -/
def rotateByQuat (q : QuatR) (v : Vec3R) : Vec3R :=
  let r := (q.mul ⟨0, v.x, v.y, v.z⟩).mul q.conjugate
  ⟨r.x, r.y, r.z⟩

/-- Reference definition following the words of the spec: the world-space ray
direction the spec describes: the local spherical direction rotated by the
yaw-pitch-roll orientation quaternion and then normalized. -/
def specWorldDirection (roll pitch yaw v h : ℝ) : Vec3R :=
  normalizeV (rotateByQuat (specOrientationQuat roll pitch yaw) (localDirection v h))

end

lemma setFromEulerYXZ_eq_axisAngle (x y z : ℝ) :
    setFromEulerYXZ x y z =
      (axisAngleQuatY y).mul ((axisAngleQuatX x).mul (axisAngleQuatZ z)) := by
  unfold setFromEulerYXZ axisAngleQuatY axisAngleQuatX axisAngleQuatZ QuatR.mul
  ext <;> dsimp only <;> ring

lemma applyQuaternionV_eq_rotateByQuat (q : QuatR) (v : Vec3R)
    (hq : q.normSq = 1) : applyQuaternionV q v = rotateByQuat q v := by
  unfold QuatR.normSq at hq
  unfold applyQuaternionV rotateByQuat QuatR.mul QuatR.conjugate
  ext <;> dsimp only
  · linear_combination (-v.x) * hq
  · linear_combination (-v.y) * hq
  · linear_combination (-v.z) * hq

lemma setFromEulerYXZ_normSq (x y z : ℝ) : (setFromEulerYXZ x y z).normSq = 1 := by
  unfold setFromEulerYXZ QuatR.normSq
  dsimp only
  have h1 := Real.sin_sq_add_cos_sq (x / 2)
  have h2 := Real.sin_sq_add_cos_sq (y / 2)
  have h3 := Real.sin_sq_add_cos_sq (z / 2)
  linear_combination
    ((Real.sin (y / 2) ^ 2 + Real.cos (y / 2) ^ 2) *
      (Real.sin (z / 2) ^ 2 + Real.cos (z / 2) ^ 2)) * h1 +
    (Real.sin (z / 2) ^ 2 + Real.cos (z / 2) ^ 2) * h2 + h3

/-- C6: for every roll, pitch, yaw (degrees) and every sampled pair of a
vertical angle v and a horizontal angle h (radians), the world-space ray
direction computed by the code equals the local-frame vector
(sin h cos v, sin v, cos h cos v) rotated, by quaternion conjugation, with
the orientation quaternion built from yaw about the vertical axis, pitch
about the lateral axis and roll about the forward axis composed in that
intrinsic order, and then normalized; and the horizontal angle of step j out
of N = numHorizontalSteps hFov steps is -hFov/2 + j * (hFov / N) degrees. -/
theorem worldRayDirection_spec (roll pitch yaw v h : ℝ) (hFov : ℚ) (j : ℕ) :
    worldRayDirection roll pitch yaw v h = specWorldDirection roll pitch yaw v h ∧
    hAngleDeg hFov j = -(hFov / 2) + j * (hFov / (numHorizontalSteps hFov : ℚ)) := by
  constructor
  · unfold worldRayDirection specWorldDirection sensorOrientationQuat
    rw [setFromEulerYXZ_eq_axisAngle]
    rw [applyQuaternionV_eq_rotateByQuat]
    · rfl
    · rw [← setFromEulerYXZ_eq_axisAngle]
      exact setFromEulerYXZ_normSq _ _ _
  · rfl

/-! ## Registries (obstacle.ts and the sensor manager file)

JavaScript Map embedding: get, set (update in place on an existing key,
append on a fresh key), delete, and values in insertion order.  The scene
graph, the selectable-object list, the transform controls and the async
glTF model loading only affect presentation and are not part of the
registries the claims quantify over, so they are omitted from the state. -/

def mapGet {α : Type} (m : List (String × α)) (k : String) : Option α :=
  (m.find? (fun e => e.1 == k)).map (fun e => e.2)

def mapSet {α : Type} (m : List (String × α)) (k : String) (v : α) :
    List (String × α) :=
  if (m.find? (fun e => e.1 == k)).isSome then
    m.map (fun e => if e.1 == k then (k, v) else e)
  else m ++ [(k, v)]

def mapDelete {α : Type} (m : List (String × α)) (k : String) :
    List (String × α) :=
  m.filter (fun e => !(e.1 == k))

def mapValues {α : Type} (m : List (String × α)) : List α :=
  m.map (fun e => e.2)

structure BoxGeometryParams where
  width : ℚ
  height : ℚ
  depth : ℚ
deriving DecidableEq, Repr

/-- obstacle.ts lines 5-9: the ObstacleData record. -/
structure ObstacleData where
  id : String
  position : Vec3Q
  dimensions : BoxGeometryParams
deriving DecidableEq, Repr

/-- The THREE.Mesh an obstacle owns, reduced to the fields the registry reads
back: its name (obstacle.ts line 36), its position (line 35) and the
BoxGeometry constructor parameters (line 31, read back in lines 125-133). -/
structure ObstacleMesh where
  name : String
  position : Vec3Q
  geometry : BoxGeometryParams
deriving DecidableEq, Repr

abbrev ObstacleRegistry := List (String × ObstacleMesh)

/-- obstacle.ts lines 30-45: build the mesh and store it under data.id. -/
def mkObstacleMesh (data : ObstacleData) : ObstacleMesh :=
  ⟨data.id, data.position, data.dimensions⟩

def addObstacle (st : ObstacleRegistry) (data : ObstacleData) : ObstacleRegistry :=
  mapSet st data.id (mkObstacleMesh data)

/-- obstacle.ts lines 68-86: delete the entry when present, warn otherwise. -/
def removeObstacle (st : ObstacleRegistry) (id : String) : ObstacleRegistry :=
  match mapGet st id with
  | some _ => mapDelete st id
  | none => st

/-- obstacle.ts lines 88-90. -/
def getAllObstacles (st : ObstacleRegistry) : List ObstacleMesh :=
  mapValues st

/-- obstacle.ts lines 122-137: read each entry back into an ObstacleData. -/
def serializeObstacles (st : ObstacleRegistry) : List ObstacleData :=
  st.map (fun e => ⟨e.1, e.2.position, e.2.geometry⟩)

/-- obstacle.ts lines 139-144: remove every current obstacle by its mesh
name, then add every record of data. -/
def deserializeObstacles (st : ObstacleRegistry) (data : List ObstacleData) :
    ObstacleRegistry :=
  data.foldl addObstacle
    ((getAllObstacles st).foldl (fun s obs => removeObstacle s obs.name) st)

/-- The THREE.Group of a placed sensor, reduced to the fields the manager
sets in addSensor lines 72-81: name, position, the euler angles passed to
rotation.set (recorded here in degrees; the group itself stores degToRad of
each component with order YXZ) and visibility. -/
structure SensorGroup where
  name : String
  position : Vec3Q
  rotationRPY : EulerRPY
  visible : Bool
deriving DecidableEq, Repr

/-- The three maps of SensorManager (sensor manager file, lines 29-31). -/
structure SensorRegistry where
  sensorDefinitions : List (String × SensorDefinition)
  placedSensors : List (String × SensorGroup)
  placedSensorData : List (String × PlacedSensorData)
deriving DecidableEq, Repr

def mkSensorGroup (data : PlacedSensorData) : SensorGroup :=
  ⟨data.id, data.position, data.rotation, data.visible⟩

/-- Sensor manager file, lines 65-104: reject the record when its
definitionId does not resolve, otherwise build the group and store the group
and the record under data.id. -/
def addSensor (st : SensorRegistry) (data : PlacedSensorData) : SensorRegistry :=
  match mapGet st.sensorDefinitions data.definitionId with
  | none => st
  | some _ =>
    { st with
      placedSensors := mapSet st.placedSensors data.id (mkSensorGroup data),
      placedSensorData := mapSet st.placedSensorData data.id data }

/-- Sensor manager file, lines 143-162: when the group exists, delete the
group and the record; otherwise warn and change nothing. -/
def removeSensor (st : SensorRegistry) (id : String) : SensorRegistry :=
  match mapGet st.placedSensors id with
  | some _ =>
    { st with
      placedSensors := mapDelete st.placedSensors id,
      placedSensorData := mapDelete st.placedSensorData id }
  | none => st

/-- Sensor manager file, lines 114-116. -/
def getAllPlacedSensorData (st : SensorRegistry) : List PlacedSensorData :=
  mapValues st.placedSensorData

/-- Sensor manager file, lines 175-177. -/
def serializeSensors (st : SensorRegistry) : List PlacedSensorData :=
  mapValues st.placedSensorData

/-- Sensor manager file, lines 179-184: remove every placed sensor, then add
every record of data. -/
def deserializeSensors (st : SensorRegistry) (data : List PlacedSensorData) :
    SensorRegistry :=
  data.foldl addSensor
    ((getAllPlacedSensorData st).foldl (fun s d => removeSensor s d.id) st)

/-! ## Map lemmas and registry fold lemmas -/

lemma mapGet_cons_self {α : Type} (k : String) (v : α) (rest : List (String × α)) :
    mapGet ((k, v) :: rest) k = some v := by
  simp [mapGet, List.find?_cons]

lemma mapDelete_not_mem {α : Type} (m : List (String × α)) (k : String)
    (h : k ∉ m.map (fun e => e.1)) : mapDelete m k = m := by
  rw [mapDelete, List.filter_eq_self]
  intro e he
  have : e.1 ≠ k := fun hk => h (hk ▸ List.mem_map_of_mem (fun e => e.1) he)
  simpa using this

lemma mapDelete_cons_self {α : Type} (k : String) (v : α)
    (rest : List (String × α)) (h : k ∉ rest.map (fun e => e.1)) :
    mapDelete ((k, v) :: rest) k = rest := by
  rw [mapDelete, List.filter_cons]
  simp only [beq_self_eq_true, Bool.not_true, Bool.false_eq_true, if_false]
  exact mapDelete_not_mem rest k h

lemma mapSet_append {α : Type} (m : List (String × α)) (k : String) (v : α)
    (h : k ∉ m.map (fun e => e.1)) : mapSet m k v = m ++ [(k, v)] := by
  rw [mapSet, if_neg]
  rw [Option.isSome_iff_exists]
  rintro ⟨e, he⟩
  have hmem := List.mem_of_find?_eq_some he
  have heq : e.1 = k := by simpa using List.find?_some he
  exact h (heq ▸ List.mem_map_of_mem (fun e => e.1) hmem)

lemma clearAllObstacles (m : ObstacleRegistry)
    (hname : ∀ e ∈ m, e.2.name = e.1)
    (hnd : (m.map (fun e => e.1)).Nodup) :
    (getAllObstacles m).foldl (fun s obs => removeObstacle s obs.name) m = [] := by
  induction m with
  | nil => rfl
  | cons e rest ih =>
    obtain ⟨k, v⟩ := e
    have hv : v.name = k := hname (k, v) (List.mem_cons_self _ _)
    have hk : k ∉ rest.map (fun e => e.1) := by
      have := hnd
      simp only [List.map_cons, List.nodup_cons] at this
      exact this.1
    have hstep : removeObstacle ((k, v) :: rest) v.name = rest := by
      rw [hv, removeObstacle, mapGet_cons_self, mapDelete_cons_self _ _ _ hk]
    show (v :: mapValues rest).foldl (fun s obs => removeObstacle s obs.name)
        ((k, v) :: rest) = []
    rw [List.foldl_cons, hstep]
    exact ih (fun e he => hname e (List.mem_cons_of_mem _ he))
      (by simp only [List.map_cons, List.nodup_cons] at hnd; exact hnd.2)

lemma addObstacle_foldl (data : List ObstacleData) :
    ∀ (st : ObstacleRegistry),
    (∀ d ∈ data, d.id ∉ st.map (fun e => e.1)) →
    (data.map (fun d => d.id)).Nodup →
    data.foldl addObstacle st =
      st ++ data.map (fun d => (d.id, mkObstacleMesh d)) := by
  induction data with
  | nil =>
    intro st _ _
    simp
  | cons d rest ih =>
    intro st hdisj hnd
    have hstep : addObstacle st d = st ++ [(d.id, mkObstacleMesh d)] :=
      mapSet_append _ _ _ (hdisj d (List.mem_cons_self _ _))
    have hndrest : (rest.map (fun d => d.id)).Nodup := by
      simp only [List.map_cons, List.nodup_cons] at hnd
      exact hnd.2
    have hdid : d.id ∉ rest.map (fun d => d.id) := by
      simp only [List.map_cons, List.nodup_cons] at hnd
      exact hnd.1
    rw [List.foldl_cons, hstep, ih]
    · simp
    · intro d' hd'
      rw [List.map_append, List.mem_append]
      rintro (h | h)
      · exact hdisj d' (List.mem_cons_of_mem _ hd') h
      · simp only [List.map_cons, List.map_nil, List.mem_singleton] at h
        exact hdid (h ▸ List.mem_map_of_mem (fun d => d.id) hd')
    · exact hndrest

lemma serialize_mk_obstacles (m : ObstacleRegistry)
    (hname : ∀ e ∈ m, e.2.name = e.1) :
    (serializeObstacles m).map (fun d => (d.id, mkObstacleMesh d)) = m := by
  induction m with
  | nil => rfl
  | cons e rest ih =>
    obtain ⟨k, v⟩ := e
    have hv : v.name = k := hname (k, v) (List.mem_cons_self _ _)
    show (k, mkObstacleMesh ⟨k, v.position, v.geometry⟩) ::
        (serializeObstacles rest).map (fun d => (d.id, mkObstacleMesh d)) =
        (k, v) :: rest
    rw [ih (fun e he => hname e (List.mem_cons_of_mem _ he))]
    cases v
    simp only [mkObstacleMesh] at hv ⊢
    rw [← hv]

lemma clearAllSensors (defs : List (String × SensorDefinition))
    (dm : List (String × PlacedSensorData)) :
    ∀ (gm : List (String × SensorGroup)),
    gm.map (fun e => e.1) = dm.map (fun e => e.1) →
    (dm.map (fun e => e.1)).Nodup →
    (∀ e ∈ dm, e.2.id = e.1) →
    (mapValues dm).foldl (fun s d => removeSensor s d.id) ⟨defs, gm, dm⟩ =
      ⟨defs, [], []⟩ := by
  induction dm with
  | nil =>
    intro gm hk _ _
    have : gm = [] := List.map_eq_nil_iff.mp (by rw [hk]; rfl)
    rw [this]
    rfl
  | cons e rest ih =>
    obtain ⟨k, v⟩ := e
    intro gm hk hnd hid
    have hv : v.id = k := hid (k, v) (List.mem_cons_self _ _)
    cases gm with
    | nil => simp at hk
    | cons g gmrest =>
      obtain ⟨gk, gv⟩ := g
      simp only [List.map_cons, List.cons.injEq] at hk
      obtain ⟨hgk, hkrest⟩ := hk
      have hgk2 : k = gk := hgk.symm
      subst hgk2
      have hknd : k ∉ rest.map (fun e => e.1) := by
        simp only [List.map_cons, List.nodup_cons] at hnd
        exact hnd.1
      have hkgm : k ∉ gmrest.map (fun e => e.1) := by
        rw [hkrest]
        exact hknd
      have hstep : removeSensor ⟨defs, (k, gv) :: gmrest, (k, v) :: rest⟩ v.id =
          ⟨defs, gmrest, rest⟩ := by
        rw [hv, removeSensor]
        simp only [mapGet_cons_self]
        rw [mapDelete_cons_self _ _ _ hkgm, mapDelete_cons_self _ _ _ hknd]
      show (v :: mapValues rest).foldl (fun s d => removeSensor s d.id)
          ⟨defs, (k, gv) :: gmrest, (k, v) :: rest⟩ = ⟨defs, [], []⟩
      rw [List.foldl_cons, hstep]
      exact ih gmrest hkrest
        (by simp only [List.map_cons, List.nodup_cons] at hnd; exact hnd.2)
        (fun e he => hid e (List.mem_cons_of_mem _ he))

lemma addSensor_foldl (data : List PlacedSensorData) :
    ∀ (defs : List (String × SensorDefinition))
      (gm : List (String × SensorGroup))
      (dm : List (String × PlacedSensorData)),
    (data.map (fun d => d.id)).Nodup →
    (∀ d ∈ data, d.id ∉ gm.map (fun e => e.1)) →
    (∀ d ∈ data, d.id ∉ dm.map (fun e => e.1)) →
    data.foldl addSensor ⟨defs, gm, dm⟩ =
      ⟨defs,
       gm ++ (data.filter
         (fun d => (mapGet defs d.definitionId).isSome)).map
           (fun d => (d.id, mkSensorGroup d)),
       dm ++ (data.filter
         (fun d => (mapGet defs d.definitionId).isSome)).map
           (fun d => (d.id, d))⟩ := by
  induction data with
  | nil =>
    intro defs gm dm _ _ _
    simp
  | cons d rest ih =>
    intro defs gm dm hnd hdisjg hdisjd
    have hndrest : (rest.map (fun d => d.id)).Nodup := by
      simp only [List.map_cons, List.nodup_cons] at hnd
      exact hnd.2
    have hdid : d.id ∉ rest.map (fun d => d.id) := by
      simp only [List.map_cons, List.nodup_cons] at hnd
      exact hnd.1
    rw [List.foldl_cons]
    cases hdef : mapGet defs d.definitionId with
    | none =>
      have hstep : addSensor ⟨defs, gm, dm⟩ d = ⟨defs, gm, dm⟩ := by
        rw [addSensor, hdef]
      rw [hstep, ih defs gm dm hndrest
        (fun d' hd' => hdisjg d' (List.mem_cons_of_mem _ hd'))
        (fun d' hd' => hdisjd d' (List.mem_cons_of_mem _ hd'))]
      rw [List.filter_cons]
      simp only [hdef, Option.isSome_none, Bool.false_eq_true, if_false]
    | some defn =>
      have hstep : addSensor ⟨defs, gm, dm⟩ d =
          ⟨defs, gm ++ [(d.id, mkSensorGroup d)], dm ++ [(d.id, d)]⟩ := by
        rw [addSensor, hdef]
        simp only
        rw [mapSet_append _ _ _ (hdisjg d (List.mem_cons_self _ _)),
            mapSet_append _ _ _ (hdisjd d (List.mem_cons_self _ _))]
      have hdisjg2 : ∀ d' ∈ rest,
          d'.id ∉ (gm ++ [(d.id, mkSensorGroup d)]).map (fun e => e.1) := by
        intro d' hd'
        rw [List.map_append, List.mem_append]
        rintro (h | h)
        · exact hdisjg d' (List.mem_cons_of_mem _ hd') h
        · simp only [List.map_cons, List.map_nil, List.mem_singleton] at h
          exact hdid (h ▸ List.mem_map_of_mem (fun d => d.id) hd')
      have hdisjd2 : ∀ d' ∈ rest,
          d'.id ∉ (dm ++ [(d.id, d)]).map (fun e => e.1) := by
        intro d' hd'
        rw [List.map_append, List.mem_append]
        rintro (h | h)
        · exact hdisjd d' (List.mem_cons_of_mem _ hd') h
        · simp only [List.map_cons, List.map_nil, List.mem_singleton] at h
          exact hdid (h ▸ List.mem_map_of_mem (fun d => d.id) hd')
      rw [hstep, ih defs _ _ hndrest hdisjg2 hdisjd2]
      rw [List.filter_cons]
      simp only [hdef, Option.isSome_some, if_true]
      simp

lemma mapValues_id_entries (dm : List (String × PlacedSensorData))
    (hid : ∀ e ∈ dm, e.2.id = e.1) :
    (mapValues dm).map (fun d => (d.id, d)) = dm := by
  induction dm with
  | nil => rfl
  | cons e rest ih =>
    obtain ⟨k, v⟩ := e
    have hv : v.id = k := hid (k, v) (List.mem_cons_self _ _)
    show (v.id, v) :: (mapValues rest).map (fun d => (d.id, d)) = (k, v) :: rest
    rw [hv, ih (fun e he => hid e (List.mem_cons_of_mem _ he))]

lemma mapValues_ids (dm : List (String × PlacedSensorData))
    (hid : ∀ e ∈ dm, e.2.id = e.1) :
    (mapValues dm).map (fun d => d.id) = dm.map (fun e => e.1) := by
  rw [mapValues, List.map_map]
  exact List.map_congr_left (fun e he => hid e he)

/-! ## Theorems for claims C8 and C10 -/

/-- C8: for every pair of well-formed registries in which every placed
sensor record resolves to a loaded definition, serializing both registries
and deserializing the serialized lists (deserialization itself first clears
the registry) reproduces the same obstacle entries and the same placed
sensor records, with identical ids, positions, dimensions, rotations and
visibility, while leaving the definition catalog unchanged. -/
theorem registries_roundtrip (ost : ObstacleRegistry) (sst : SensorRegistry)
    (hOname : ∀ e ∈ ost, e.2.name = e.1)
    (hOnd : (ost.map (fun e => e.1)).Nodup)
    (hSid : ∀ e ∈ sst.placedSensorData, e.2.id = e.1)
    (hSnd : (sst.placedSensorData.map (fun e => e.1)).Nodup)
    (hSkeys : sst.placedSensors.map (fun e => e.1) =
      sst.placedSensorData.map (fun e => e.1))
    (hSres : ∀ e ∈ sst.placedSensorData,
      (mapGet sst.sensorDefinitions e.2.definitionId).isSome) :
    deserializeObstacles ost (serializeObstacles ost) = ost ∧
    (deserializeSensors sst (serializeSensors sst)).placedSensorData =
      sst.placedSensorData ∧
    (deserializeSensors sst (serializeSensors sst)).sensorDefinitions =
      sst.sensorDefinitions := by
  obtain ⟨defs, gm, dm⟩ := sst
  dsimp only at hSid hSnd hSkeys hSres ⊢
  have hser : ((serializeObstacles ost).map (fun d => d.id)).Nodup := by
    rw [serializeObstacles, List.map_map]
    exact hOnd
  have hobs : deserializeObstacles ost (serializeObstacles ost) = ost := by
    rw [deserializeObstacles, clearAllObstacles ost hOname hOnd,
      addObstacle_foldl _ [] (by intro d _ h; cases h) hser,
      List.nil_append, serialize_mk_obstacles ost hOname]
  have hvalnd : ((mapValues dm).map (fun d => d.id)).Nodup := by
    rw [mapValues_ids dm hSid]
    exact hSnd
  have hfilter : (mapValues dm).filter
      (fun d => (mapGet defs d.definitionId).isSome) = mapValues dm := by
    rw [List.filter_eq_self]
    intro d hd
    rcases List.mem_map.mp hd with ⟨e, he, hde⟩
    rw [← hde]
    exact hSres e he
  have hsen : deserializeSensors ⟨defs, gm, dm⟩ (serializeSensors ⟨defs, gm, dm⟩) =
      ⟨defs, (mapValues dm).map (fun d => (d.id, mkSensorGroup d)), dm⟩ := by
    rw [deserializeSensors]
    rw [show getAllPlacedSensorData ⟨defs, gm, dm⟩ = mapValues dm from rfl]
    rw [clearAllSensors defs dm gm hSkeys hSnd hSid]
    rw [show serializeSensors ⟨defs, gm, dm⟩ = mapValues dm from rfl]
    rw [addSensor_foldl _ defs [] [] hvalnd
      (by intro d _ h; cases h) (by intro d _ h; cases h)]
    rw [hfilter, List.nil_append, List.nil_append, mapValues_id_entries dm hSid]
  exact ⟨hobs, by rw [hsen], by rw [hsen]⟩

def obstacleRegistryW : ObstacleRegistry :=
  [("o1", ⟨"o1", ⟨1, 2, 3⟩, ⟨1, 1, 1⟩⟩)]

def sensorDefinitionW : SensorDefinition :=
  ⟨"def1", "Sensor", 360, 30, 20, 16, BeamLayout.verticalEven, "m.glb"⟩

def placedSensorW : PlacedSensorData :=
  ⟨"s1", "def1", ⟨0, 0, 0⟩, ⟨0, 0, 90⟩, true⟩

def sensorRegistryW : SensorRegistry :=
  ⟨[("def1", sensorDefinitionW)], [("s1", mkSensorGroup placedSensorW)],
   [("s1", placedSensorW)]⟩

theorem registries_roundtrip_witness :
    deserializeObstacles obstacleRegistryW (serializeObstacles obstacleRegistryW) =
      obstacleRegistryW ∧
    (deserializeSensors sensorRegistryW (serializeSensors sensorRegistryW)).placedSensorData =
      sensorRegistryW.placedSensorData ∧
    (deserializeSensors sensorRegistryW (serializeSensors sensorRegistryW)).sensorDefinitions =
      sensorRegistryW.sensorDefinitions :=
  registries_roundtrip obstacleRegistryW sensorRegistryW
    (by decide) (by decide) (by decide) (by decide) (by decide) (by decide)

/-- C10: deserialization replaces a well-formed registry wholesale: whatever
the previous entries were, after deserializeObstacles the obstacle registry
holds exactly the meshes constructed from the incoming records, and after
deserializeSensors the sensor registry holds exactly the records (and the
groups built from them) whose definitionId resolves in the loaded catalog,
unresolvable records being dropped silently; the catalog itself is
untouched. -/
theorem deserialize_replaces_registry (ost : ObstacleRegistry)
    (sst : SensorRegistry) (odata : List ObstacleData)
    (sdata : List PlacedSensorData)
    (hOname : ∀ e ∈ ost, e.2.name = e.1)
    (hOnd : (ost.map (fun e => e.1)).Nodup)
    (hodnd : (odata.map (fun d => d.id)).Nodup)
    (hSid : ∀ e ∈ sst.placedSensorData, e.2.id = e.1)
    (hSnd : (sst.placedSensorData.map (fun e => e.1)).Nodup)
    (hSkeys : sst.placedSensors.map (fun e => e.1) =
      sst.placedSensorData.map (fun e => e.1))
    (hsdnd : (sdata.map (fun d => d.id)).Nodup) :
    deserializeObstacles ost odata =
      odata.map (fun d => (d.id, mkObstacleMesh d)) ∧
    (deserializeSensors sst sdata).sensorDefinitions = sst.sensorDefinitions ∧
    (deserializeSensors sst sdata).placedSensorData =
      (sdata.filter
        (fun d => (mapGet sst.sensorDefinitions d.definitionId).isSome)).map
          (fun d => (d.id, d)) ∧
    (deserializeSensors sst sdata).placedSensors =
      (sdata.filter
        (fun d => (mapGet sst.sensorDefinitions d.definitionId).isSome)).map
          (fun d => (d.id, mkSensorGroup d)) := by
  obtain ⟨defs, gm, dm⟩ := sst
  dsimp only at hSid hSnd hSkeys ⊢
  have hobs : deserializeObstacles ost odata =
      odata.map (fun d => (d.id, mkObstacleMesh d)) := by
    rw [deserializeObstacles, clearAllObstacles ost hOname hOnd,
      addObstacle_foldl _ [] (by intro d _ h; cases h) hodnd, List.nil_append]
  have hsen : deserializeSensors ⟨defs, gm, dm⟩ sdata =
      ⟨defs,
       (sdata.filter (fun d => (mapGet defs d.definitionId).isSome)).map
         (fun d => (d.id, mkSensorGroup d)),
       (sdata.filter (fun d => (mapGet defs d.definitionId).isSome)).map
         (fun d => (d.id, d))⟩ := by
    rw [deserializeSensors]
    rw [show getAllPlacedSensorData ⟨defs, gm, dm⟩ = mapValues dm from rfl]
    rw [clearAllSensors defs dm gm hSkeys hSnd hSid]
    rw [addSensor_foldl _ defs [] [] hsdnd
      (by intro d _ h; cases h) (by intro d _ h; cases h)]
    rw [List.nil_append, List.nil_append]
  exact ⟨hobs, by rw [hsen], by rw [hsen], by rw [hsen]⟩

theorem deserialize_replaces_registry_witness :
    deserializeObstacles [] [⟨"o2", ⟨4, 5, 6⟩, ⟨2, 2, 2⟩⟩] =
      [⟨"o2", mkObstacleMesh ⟨"o2", ⟨4, 5, 6⟩, ⟨2, 2, 2⟩⟩⟩] ∧
    (deserializeSensors sensorRegistryW
      [placedSensorW, ⟨"s2", "missing", ⟨1, 1, 1⟩, ⟨0, 0, 0⟩, false⟩]).placedSensorData =
      ([placedSensorW, ⟨"s2", "missing", ⟨1, 1, 1⟩, ⟨0, 0, 0⟩, false⟩].filter
        (fun d => (mapGet sensorRegistryW.sensorDefinitions d.definitionId).isSome)).map
          (fun d => (d.id, d)) := by
  have h := deserialize_replaces_registry [] sensorRegistryW
    [⟨"o2", ⟨4, 5, 6⟩, ⟨2, 2, 2⟩⟩]
    [placedSensorW, ⟨"s2", "missing", ⟨1, 1, 1⟩, ⟨0, 0, 0⟩, false⟩]
    (by decide) (by decide) (by decide) (by decide) (by decide) (by decide) (by decide)
  exact ⟨h.1, h.2.2.1⟩

/-! ## Beam manager state (beams.ts, updateBeams)

The beamMeshes map of BeamManager is embedded as a function from sensor id
to the optional content of the registered beam group; the content is the
sample list generateBeamsForSensor emits for that sensor.  The per-object
intersection-distance oracle is keyed by sensor id: it stands for the
geometric response of the current obstacle set, floor and sensor pose to
the rays of that sensor. -/

def BeamMap := String → Option (List Sample)

/-- beams.ts lines 51-62: remove the beam group of the sensor (disposing its
geometries) so the key is absent afterwards. -/
def clearBeamsForSensor (m : BeamMap) (id : String) : BeamMap :=
  fun k => if k = id then none else m k

structure BeamScene where
  sensors : SensorRegistry
  hitsFor : String → ℕ → ℕ → List (List ℚ)

/-- beams.ts lines 64-127: clear the previous group of the sensor, then
register the freshly generated beam group under its id. -/
def generateBeamsForSensor (scene : BeamScene) (m : BeamMap)
    (sd : PlacedSensorData) (defn : SensorDefinition) : BeamMap :=
  let cleared := clearBeamsForSensor m sd.id
  fun k =>
    if k = sd.id then some (generateSamples defn (scene.hitsFor sd.id))
    else cleared k

/-- beams.ts lines 31-41: the body of the forEach over placed sensor data:
an invisible sensor gets its beams cleared; a visible one with a resolvable
definition and an existing group gets its beams regenerated; a visible one
missing either is left untouched. -/
def updateBeamsEntry (scene : BeamScene) (m : BeamMap)
    (sd : PlacedSensorData) : BeamMap :=
  if sd.visible = false then clearBeamsForSensor m sd.id
  else
    match mapGet scene.sensors.sensorDefinitions sd.definitionId,
          mapGet scene.sensors.placedSensors sd.id with
    | some defn, some _ => generateBeamsForSensor scene m sd defn
    | _, _ => m

/-- beams.ts lines 29-49: run the per-sensor loop, then clear every beam
group whose sensor id is no longer among the placed sensors (the second
forEach over beamMeshes); on the map embedding the second phase restricts
the map to the current ids. -/
def updateBeams (scene : BeamScene) (m : BeamMap) : BeamMap :=
  fun k =>
    if ((getAllPlacedSensorData scene.sensors).map (fun sd => sd.id)).contains k
    then ((getAllPlacedSensorData scene.sensors).foldl (updateBeamsEntry scene) m) k
    else none

/-- The effect of one loop iteration on the value stored at key k. -/
def procAt (scene : BeamScene) (sd : PlacedSensorData) (k : String)
    (v : Option (List Sample)) : Option (List Sample) :=
  if k = sd.id then
    (if sd.visible = false then none
     else
       match mapGet scene.sensors.sensorDefinitions sd.definitionId,
             mapGet scene.sensors.placedSensors sd.id with
       | some defn, some _ => some (generateSamples defn (scene.hitsFor sd.id))
       | _, _ => v)
  else v

lemma updateBeamsEntry_eval (scene : BeamScene) (m : BeamMap)
    (sd : PlacedSensorData) (k : String) :
    updateBeamsEntry scene m sd k = procAt scene sd k (m k) := by
  unfold updateBeamsEntry procAt clearBeamsForSensor generateBeamsForSensor
  by_cases hvis : sd.visible = false
  · simp [hvis]
  · simp only [if_neg hvis]
    cases hdef : mapGet scene.sensors.sensorDefinitions sd.definitionId with
    | none => simp
    | some defn =>
      cases hgrp : mapGet scene.sensors.placedSensors sd.id with
      | none => simp
      | some g =>
        by_cases hk : k = sd.id <;> simp [clearBeamsForSensor, hk]

lemma foldl_updateBeamsEntry_eval (scene : BeamScene)
    (l : List PlacedSensorData) :
    ∀ (m : BeamMap) (k : String),
    (l.foldl (updateBeamsEntry scene) m) k =
      l.foldl (fun v sd => procAt scene sd k v) (m k) := by
  induction l with
  | nil =>
    intro m k
    rfl
  | cons sd rest ih =>
    intro m k
    rw [List.foldl_cons, List.foldl_cons, ih, updateBeamsEntry_eval]

lemma procAt_constOrId (scene : BeamScene) (sd : PlacedSensorData)
    (k : String) :
    (∀ v, procAt scene sd k v = v) ∨ (∃ c, ∀ v, procAt scene sd k v = c) := by
  unfold procAt
  by_cases hk : k = sd.id
  · simp only [if_pos hk]
    by_cases hvis : sd.visible = false
    · exact Or.inr ⟨none, fun v => by simp [hvis]⟩
    · cases hdef : mapGet scene.sensors.sensorDefinitions sd.definitionId with
      | none => exact Or.inl (fun v => by simp [hvis, hdef])
      | some defn =>
        cases hgrp : mapGet scene.sensors.placedSensors sd.id with
        | none => exact Or.inl (fun v => by simp [hvis, hdef, hgrp])
        | some g =>
          exact Or.inr ⟨some (generateSamples defn (scene.hitsFor sd.id)),
            fun v => by simp [hvis, hdef, hgrp]⟩
  · exact Or.inl (fun v => by simp [hk])

lemma scalarFold_constOrId (scene : BeamScene) (k : String)
    (l : List PlacedSensorData) :
    (∀ v, l.foldl (fun v sd => procAt scene sd k v) v = v) ∨
    (∃ c, ∀ v, l.foldl (fun v sd => procAt scene sd k v) v = c) := by
  induction l with
  | nil => exact Or.inl (fun v => rfl)
  | cons sd rest ih =>
    rcases procAt_constOrId scene sd k with hid | ⟨c, hc⟩
    · rcases ih with hid2 | ⟨c2, hc2⟩
      · refine Or.inl (fun v => ?_)
        rw [List.foldl_cons, hid v]
        exact hid2 v
      · refine Or.inr ⟨c2, fun v => ?_⟩
        rw [List.foldl_cons, hid v]
        exact hc2 v
    · refine Or.inr ⟨rest.foldl (fun v sd => procAt scene sd k v) c, fun v => ?_⟩
      rw [List.foldl_cons, hc v]

lemma procAt_eq_of_ne (scene : BeamScene) (sd : PlacedSensorData) (k : String)
    (v : Option (List Sample)) (hk : ¬ k = sd.id) : procAt scene sd k v = v := by
  unfold procAt
  rw [if_neg hk]

lemma procAt_eq_none (scene : BeamScene) (sd : PlacedSensorData) (k : String)
    (v : Option (List Sample)) (hk : k = sd.id) (hinv : sd.visible = false) :
    procAt scene sd k v = none := by
  unfold procAt
  rw [if_pos hk, if_pos hinv]

lemma procAt_eq_keep (scene : BeamScene) (sd : PlacedSensorData) (k : String)
    (v : Option (List Sample)) (hk : k = sd.id) (hvis : sd.visible = true)
    (hmiss : mapGet scene.sensors.sensorDefinitions sd.definitionId = none ∨
      mapGet scene.sensors.placedSensors sd.id = none) :
    procAt scene sd k v = v := by
  unfold procAt
  rw [if_pos hk, if_neg (by rw [hvis]; exact fun h => Bool.noConfusion h)]
  rcases hmiss with hm | hm
  · cases hgrp : mapGet scene.sensors.placedSensors sd.id <;> simp [hm, hgrp]
  · cases hdef : mapGet scene.sensors.sensorDefinitions sd.definitionId <;>
      simp [hm, hdef]

lemma scalarFold_no_key (scene : BeamScene) (k : String)
    (l : List PlacedSensorData) (h : ∀ sd ∈ l, sd.id ≠ k) :
    ∀ v, l.foldl (fun v sd => procAt scene sd k v) v = v := by
  induction l with
  | nil =>
    intro v
    rfl
  | cons sd rest ih =>
    intro v
    rw [List.foldl_cons,
      procAt_eq_of_ne scene sd k v (fun hk => h sd (List.mem_cons_self _ _) hk.symm)]
    exact ih (fun sd' h' => h sd' (List.mem_cons_of_mem _ h')) v

lemma scalarFold_invisible (scene : BeamScene) (k : String)
    (sd : PlacedSensorData) (hid : sd.id = k) (hinv : sd.visible = false) :
    ∀ (l : List PlacedSensorData), (l.map (fun sd => sd.id)).Nodup → sd ∈ l →
    ∀ v, l.foldl (fun v sd => procAt scene sd k v) v = none := by
  intro l
  induction l with
  | nil =>
    intro _ hmem
    cases hmem
  | cons hd rest ih =>
    intro hnd hmem v
    have hndr : (rest.map (fun sd => sd.id)).Nodup := by
      simp only [List.map_cons, List.nodup_cons] at hnd
      exact hnd.2
    have hhd : hd.id ∉ rest.map (fun sd => sd.id) := by
      simp only [List.map_cons, List.nodup_cons] at hnd
      exact hnd.1
    rw [List.foldl_cons]
    rcases List.mem_cons.mp hmem with heq | hmem2
    · have hk : k = hd.id := by rw [← heq, hid]
      have hinvhd : hd.visible = false := by rw [← heq, hinv]
      rw [procAt_eq_none scene hd k v hk hinvhd]
      apply scalarFold_no_key
      intro sd' h' heq'
      apply hhd
      have h2 : sd'.id ∈ rest.map (fun sd => sd.id) :=
        List.mem_map_of_mem (fun sd => sd.id) h'
      rw [heq', hk] at h2
      exact h2
    · have hk : ¬ k = hd.id := by
        intro hkk
        apply hhd
        have h2 : sd.id ∈ rest.map (fun sd => sd.id) :=
          List.mem_map_of_mem (fun sd => sd.id) hmem2
        rw [hid, hkk] at h2
        exact h2
      rw [procAt_eq_of_ne scene hd k v hk]
      exact ih hndr hmem2 v

lemma scalarFold_keep (scene : BeamScene) (k : String)
    (sd : PlacedSensorData) (hid : sd.id = k) (hvis : sd.visible = true)
    (hmiss : mapGet scene.sensors.sensorDefinitions sd.definitionId = none ∨
      mapGet scene.sensors.placedSensors sd.id = none) :
    ∀ (l : List PlacedSensorData), (l.map (fun sd => sd.id)).Nodup → sd ∈ l →
    ∀ v, l.foldl (fun v sd => procAt scene sd k v) v = v := by
  intro l
  induction l with
  | nil =>
    intro _ hmem
    cases hmem
  | cons hd rest ih =>
    intro hnd hmem v
    have hndr : (rest.map (fun sd => sd.id)).Nodup := by
      simp only [List.map_cons, List.nodup_cons] at hnd
      exact hnd.2
    have hhd : hd.id ∉ rest.map (fun sd => sd.id) := by
      simp only [List.map_cons, List.nodup_cons] at hnd
      exact hnd.1
    rw [List.foldl_cons]
    rcases List.mem_cons.mp hmem with heq | hmem2
    · have hk : k = hd.id := by rw [← heq, hid]
      rw [show procAt scene hd k v = v from heq ▸ procAt_eq_keep scene sd k v
        hid.symm hvis hmiss]
      apply scalarFold_no_key
      intro sd' h' heq'
      apply hhd
      have h2 : sd'.id ∈ rest.map (fun sd => sd.id) :=
        List.mem_map_of_mem (fun sd => sd.id) h'
      rw [heq', hk] at h2
      exact h2
    · have hk : ¬ k = hd.id := by
        intro hkk
        apply hhd
        have h2 : sd.id ∈ rest.map (fun sd => sd.id) :=
          List.mem_map_of_mem (fun sd => sd.id) hmem2
        rw [hid, hkk] at h2
        exact h2
      rw [procAt_eq_of_ne scene hd k v hk]
      exact ih hndr hmem2 v

/-! ## Theorems for claims C2 and C9 -/

/-- C2 (amended): in an evaluation over a registry with distinct sensor ids,
updateBeams releases the beam group of every invisible sensor and of every
sensor that has been removed from the registry before returning; but a
sensor that is still registered and visible whose definition or placed
group is missing is skipped without any release, its previous beam group
surviving the evaluation unchanged. -/
theorem updateBeams_skip_cleanup (scene : BeamScene) (m : BeamMap) (id : String)
    (hnd : ((getAllPlacedSensorData scene.sensors).map (fun sd => sd.id)).Nodup) :
    (∀ sd ∈ getAllPlacedSensorData scene.sensors,
      sd.id = id → sd.visible = false → updateBeams scene m id = none) ∧
    (id ∉ (getAllPlacedSensorData scene.sensors).map (fun sd => sd.id) →
      updateBeams scene m id = none) ∧
    (∀ sd ∈ getAllPlacedSensorData scene.sensors,
      sd.id = id → sd.visible = true →
      (mapGet scene.sensors.sensorDefinitions sd.definitionId = none ∨
       mapGet scene.sensors.placedSensors sd.id = none) →
      updateBeams scene m id = m id) := by
  have heval : ∀ m' : BeamMap, updateBeams scene m' id =
      if ((getAllPlacedSensorData scene.sensors).map
          (fun sd => sd.id)).contains id
      then ((getAllPlacedSensorData scene.sensors).foldl
        (updateBeamsEntry scene) m') id
      else none := fun m' => rfl
  refine ⟨?_, ?_, ?_⟩
  · intro sd hmem hid hinv
    have hcont : ((getAllPlacedSensorData scene.sensors).map
        (fun sd => sd.id)).contains id = true := by
      refine List.elem_iff.mpr ?_
      have h2 : sd.id ∈ (getAllPlacedSensorData scene.sensors).map
          (fun sd => sd.id) := List.mem_map_of_mem (fun sd => sd.id) hmem
      rw [hid] at h2
      exact h2
    rw [heval, if_pos hcont, foldl_updateBeamsEntry_eval]
    exact scalarFold_invisible scene id sd hid hinv _ hnd hmem (m id)
  · intro hnm
    have hcont : ¬ ((getAllPlacedSensorData scene.sensors).map
        (fun sd => sd.id)).contains id = true :=
      fun h => hnm (List.elem_iff.mp h)
    rw [heval, if_neg hcont]
  · intro sd hmem hid hvis hmiss
    have hcont : ((getAllPlacedSensorData scene.sensors).map
        (fun sd => sd.id)).contains id = true := by
      refine List.elem_iff.mpr ?_
      have h2 : sd.id ∈ (getAllPlacedSensorData scene.sensors).map
          (fun sd => sd.id) := List.mem_map_of_mem (fun sd => sd.id) hmem
      rw [hid] at h2
      exact h2
    rw [heval, if_pos hcont, foldl_updateBeamsEntry_eval]
    exact scalarFold_keep scene id sd hid hvis hmiss _ hnd hmem (m id)

/-- A scene with one placed, visible sensor record whose definitionId does
not resolve and whose group is absent. -/
def beamSceneCE : BeamScene :=
  ⟨⟨[], [], [("s", ⟨"s", "d", ⟨0, 0, 0⟩, ⟨0, 0, 0⟩, true⟩)]⟩, fun _ _ _ => []⟩

/-- A beam map still holding a previously emitted beam group for sensor s. -/
def beamMapCE : BeamMap := fun k => if k = "s" then some [⟨0, 0, 5⟩] else none

/-- C2 counterexample: sensor s is skipped by the evaluation (it is visible
but its definition does not resolve and it has no placed group), yet its
previously emitted beam group is NOT released: it survives updateBeams
unchanged, contradicting the claim that every skipped sensor has its visual
resources released before the evaluation returns. -/
theorem updateBeams_missing_definition_stale :
    (∀ sd ∈ getAllPlacedSensorData beamSceneCE.sensors,
      sd.visible = true ∧
      mapGet beamSceneCE.sensors.sensorDefinitions sd.definitionId = none ∧
      mapGet beamSceneCE.sensors.placedSensors sd.id = none) ∧
    beamMapCE "s" = some [⟨0, 0, 5⟩] ∧
    updateBeams beamSceneCE beamMapCE "s" = some [⟨0, 0, 5⟩] := by
  refine ⟨by decide, by decide, ?_⟩
  have heval : updateBeams beamSceneCE beamMapCE "s" =
      ((getAllPlacedSensorData beamSceneCE.sensors).foldl
        (updateBeamsEntry beamSceneCE) beamMapCE) "s" := by
    rw [show updateBeams beamSceneCE beamMapCE "s" =
      if ((getAllPlacedSensorData beamSceneCE.sensors).map
          (fun sd => sd.id)).contains "s"
      then ((getAllPlacedSensorData beamSceneCE.sensors).foldl
        (updateBeamsEntry beamSceneCE) beamMapCE) "s"
      else none from rfl, if_pos (by decide)]
  rw [heval, foldl_updateBeamsEntry_eval]
  decide

/-- C9: evaluating the engine a second time from the same registry, world
and geometry state, with no mutation in between, leaves exactly the beam
state the first evaluation produced: every sensor keeps the identical
sample set (same channel and step indices, hence the same ray origins and
directions for the fixed sensor poses, and the same resolved distances),
because each visible handled sensor is regenerated from the registry
snapshot alone and every other key is unchanged or absent in both runs. -/
theorem updateBeams_idempotent (scene : BeamScene) (m : BeamMap) :
    updateBeams scene (updateBeams scene m) = updateBeams scene m := by
  funext k
  have heval : ∀ m' : BeamMap, updateBeams scene m' k =
      if ((getAllPlacedSensorData scene.sensors).map
          (fun sd => sd.id)).contains k
      then ((getAllPlacedSensorData scene.sensors).foldl
        (updateBeamsEntry scene) m') k
      else none := fun m' => rfl
  by_cases hcont : ((getAllPlacedSensorData scene.sensors).map
      (fun sd => sd.id)).contains k = true
  · rw [heval, heval, if_pos hcont, if_pos hcont,
      foldl_updateBeamsEntry_eval, foldl_updateBeamsEntry_eval,
      heval, if_pos hcont, foldl_updateBeamsEntry_eval]
    rcases scalarFold_constOrId scene k (getAllPlacedSensorData scene.sensors)
      with hid | ⟨c, hc⟩
    · exact hid _
    · rw [hc, hc]
  · rw [heval, heval, if_neg hcont, if_neg hcont]

/-- A scene with one placed sensor record that is invisible. -/
def beamSceneW : BeamScene :=
  ⟨⟨[], [], [("si", ⟨"si", "d", ⟨0, 0, 0⟩, ⟨0, 0, 0⟩, false⟩)]⟩, fun _ _ _ => []⟩

/-- A beam map still holding a beam group for sensor si. -/
def beamMapW : BeamMap := fun k => if k = "si" then some [⟨0, 0, 1⟩] else none

theorem updateBeams_skip_cleanup_witness :
    updateBeams beamSceneW beamMapW "si" = none :=
  (updateBeams_skip_cleanup beamSceneW beamMapW "si" (by decide)).1
    ⟨"si", "d", ⟨0, 0, 0⟩, ⟨0, 0, 0⟩, false⟩ (by decide) (by decide) (by decide)
